import Mathlib

/-!
Shallow embedding of the tidying and fetching pipeline of
`proyecto_ciencia_de_datos` (files `data/tidy_data.py` and
`data/make_dataset.py`).

A pandas `DataFrame` is modelled as a `Table`: an ordered list of column
names and a list of rows, each row a list of `Cell`s aligned positionally
with the columns.  Cells carry the value kinds the pipeline manipulates:
the pandas null marker (`NA`/`NaN`), strings, numbers (modelled as `Rat`;
the pipeline's numeric coercions are value-preserving, so the float/Rat
distinction does not matter for the properties proved here), booleans,
and datetimes (used only by the weather pipeline).
-/

set_option maxHeartbeats 1000000

namespace ProyIngDatos

/-- A datetime value, as produced by the timestamp parser of the weather
pipeline (pandas `to_datetime`).  Only the components the code extracts
(plus minutes) are modelled. -/
structure PyDateTime where
  year : Nat
  month : Nat
  day : Nat
  hour : Nat
  minute : Nat
deriving DecidableEq, Repr

/-- One cell of a DataFrame. -/
inductive Cell where
  | na : Cell
  | str (s : String) : Cell
  | num (q : Rat) : Cell
  | bool (b : Bool) : Cell
  | dt (d : PyDateTime) : Cell
deriving DecidableEq, Repr

/-- A DataFrame: ordered column names and rows of cells aligned with them. -/
structure Table where
  cols : List String
  rows : List (List Cell)
deriving DecidableEq, Repr

/-- The canonical AXA schema, `BASE_COLUMNS` of `tidy_axa_data`
(`tidy_data.py` lines 35-44); identical to `COLUMNAS` of `make_dataset.py`. -/
def BASE_COLUMNS : List String :=
  ["SINIESTRO", "LATITUD", "LONGITUD", "CODIGO POSTAL", "CALLE", "COLONIA",
   "CAUSA SINIESTRO", "TIPO VEHICULO", "COLOR", "MODELO", "NIVEL DAÑO VEHICULO",
   "PUNTO DE IMPACTO", "AÑO", "MES", "DÍA NUMERO", "DIA", "HORA", "ESTADO", "CIUDAD",
   "LESIONADOS", "RELACION LESIONADOS", "EDAD LESIONADO", "GENERO LESIONADO",
   "NIVEL LESIONADO", "HOSPITALIZADO", "FALLECIDO", "AMBULANCIA", "ARBOL",
   "PIEDRA", "DORMIDO", "GRUA", "OBRA CIVIL", "PAVIMENTO MOJADO",
   "EXPLOSION LLANTA", "VOLCADURA", "PERDIDA TOTAL", "CONDUCTOR DISTRAIDO",
   "FUGA", "ALCOHOL", "MOTOCICLETA", "BICICLETA", "SEGURO", "TAXI", "ANIMAL"]

/-- The numeric columns of cleaning step 4 (`tidy_data.py` line 129). -/
def NUMERIC_COLS : List String := ["LATITUD", "LONGITUD", "AÑO", "MES"]

/-- The binary incident-factor columns of cleaning step 5
(`tidy_data.py` lines 134-139). -/
def BINARY_COLS : List String :=
  ["HOSPITALIZADO", "FALLECIDO", "AMBULANCIA", "ARBOL", "PIEDRA", "DORMIDO",
   "GRUA", "OBRA CIVIL", "PAVIMENTO MOJADO", "EXPLOSION LLANTA", "VOLCADURA",
   "PERDIDA TOTAL", "CONDUCTOR DISTRAIDO", "FUGA", "ALCOHOL", "MOTOCICLETA",
   "BICICLETA", "SEGURO", "TAXI", "ANIMAL"]

/-! ### Python string primitives used by the scripts -/

/-- Python `str.isspace` membership for the whitespace characters Python's
`strip` removes (the ASCII ones; the data at hand is ASCII-delimited text). -/
def isSpaceChar (c : Char) : Bool :=
  c = ' ' || c = '\t' || c = '\n' || c = '\r' || c = '\x0b' || c = '\x0c'

/-- Python `str.upper` on one character, restricted to the ASCII case map
(the column names and tokens the scripts compare are ASCII or already
uppercase). -/
def pyUpperChar (c : Char) : Char :=
  if 97 ≤ c.toNat ∧ c.toNat ≤ 122 then Char.ofNat (c.toNat - 32) else c

/-- Python `str.upper`. -/
def pyUpper (s : String) : String := String.mk (s.data.map pyUpperChar)

/-- Python `str.strip` on a character list. -/
def pyStripList (l : List Char) : List Char :=
  ((l.dropWhile isSpaceChar).reverse.dropWhile isSpaceChar).reverse

/-- Python `str.strip`. -/
def pyStrip (s : String) : String := String.mk (pyStripList s.data)

/-- Whether `pat` occurs as a contiguous subsequence of `l`
(Python's `in` on strings). -/
def containsSeq (pat : List Char) : List Char → Bool
  | [] => pat.isEmpty
  | c :: t => pat.isPrefixOf (c :: t) || containsSeq pat t

/-- Python `needle in hay` on strings. -/
def pyContains (hay needle : String) : Bool := containsSeq needle.data hay.data

/-- `c.toNat - 48` digit folding for Python-style integer literals. -/
def digitsToNat (l : List Char) : Nat :=
  l.foldl (fun a c => a * 10 + (c.toNat - 48)) 0

/-- All characters are ASCII digits. -/
def digitsOnly (l : List Char) : Bool := l.all (fun c => '0' ≤ c && c ≤ '9')

/-- Python `s.split(sep)` for a one-character separator (the scripts only
split on a single character: `'_'`, and the timestamp punctuation). -/
def splitChar (sep : Char) : List Char → List (List Char)
  | [] => [[]]
  | c :: t =>
    if c = sep then [] :: splitChar sep t
    else
      match splitChar sep t with
      | [] => [[c]]
      | h :: rest => (c :: h) :: rest

/-- Python `s.replace(old, new)`: replace every non-overlapping occurrence,
left to right.  Fueled so the definition is structural (one character is
consumed per step, so `l.length` fuel suffices). -/
def replaceSeqFuel (old new : List Char) : Nat → List Char → List Char
  | 0, l => l
  | _ + 1, [] => []
  | fuel + 1, c :: t =>
    if !old.isEmpty && old.isPrefixOf (c :: t) then
      new ++ replaceSeqFuel old new fuel (List.drop old.length (c :: t))
    else c :: replaceSeqFuel old new fuel t

/-- Python `s.replace(old, new)` on strings. -/
def pyReplace (s old new : String) : String :=
  String.mk (replaceSeqFuel old.data new.data s.data.length s.data)

/-- Python `int(s)`: tolerate surrounding whitespace and one sign, then
require nonempty digits; `none` models the `ValueError` the scripts catch. -/
def pyInt (s : String) : Option Int :=
  match pyStripList s.data with
  | [] => none
  | '-' :: t => if !t.isEmpty && digitsOnly t then some (-(digitsToNat t : Int)) else none
  | '+' :: t => if !t.isEmpty && digitsOnly t then some ((digitsToNat t : Int)) else none
  | l => if digitsOnly l then some ((digitsToNat l : Int)) else none

/-! ### Header and delimiter detection (`tidy_axa_data`, lines 64-79) -/

/-- Line 68: `has_header = "SINIESTRO" in first_line.upper()` where
`first_line = f.readline().strip()` (line 67). -/
def hasHeader (firstLine : String) : Bool :=
  pyContains (pyUpper (pyStrip firstLine)) "SINIESTRO"

/-- Lines 71-78: sniff a delimiter from `f.read(2048)` (the first 2048
characters of the file) and fall back to a comma when the sniffer raises.
`csv.Sniffer().sniff` itself is external-library heuristics, modelled as
an abstract function returning `none` when it raises. -/
def detectDelimiter (sniff : String → Option Char) (content : String) : Char :=
  match sniff (content.take 2048) with
  | some d => d
  | none => ','

/-! ### Schema reconciliation (`tidy_axa_data`, lines 88-101) -/

/-- The value of row `r` in column `c`: first match of `c` in the header.
Used where the code indexes `df[c]` with `c` present; the `none` default is
never reached there. -/
def lookupCell (cols : List String) (r : List Cell) (c : String) : Cell :=
  match (cols.zip r).find? (fun p => p.1 == c) with
  | some p => p.2
  | none => Cell.na

/-- Lines 89, 92-95: every canonical column absent from the parsed frame is
appended and filled with `pd.NA` for every row. -/
def missingOf (cols : List String) : List String :=
  BASE_COLUMNS.filter (fun c => !(cols.contains c))

def addMissing (t : Table) : Table :=
  { cols := t.cols ++ missingOf t.cols,
    rows := t.rows.map (fun r => r ++ (missingOf t.cols).map (fun _ => Cell.na)) }

/-- Lines 90, 96-98: every parsed column not in the canonical schema is
dropped. -/
def dropExtra (t : Table) : Table :=
  { cols := t.cols.filter (fun c => BASE_COLUMNS.contains c),
    rows := t.rows.map (fun r =>
      ((t.cols.zip r).filter (fun p => BASE_COLUMNS.contains p.1)).map (fun p => p.2)) }

/-- Line 101: `df = df[BASE_COLUMNS]`, reordering to canonical order. -/
def selectCols (sel : List String) (t : Table) : Table :=
  { cols := sel, rows := t.rows.map (fun r => sel.map (lookupCell t.cols r)) }

/-- The per-file schema reconciliation, lines 88-101. -/
def reconcile (t : Table) : Table := selectCols BASE_COLUMNS (dropExtra (addMissing t))

/-! ### Cleaning steps 1-6 (`tidy_axa_data`, lines 118-149) -/

/-- `drop_duplicates` keeping the first occurrence of each row, in order. -/
def dedupRows : List (List Cell) → List (List Cell)
  | [] => []
  | r :: rs => r :: (dedupRows rs).filter (fun x => x ≠ r)

/-- Step 1 (line 119): remove exact-duplicate rows. -/
def dropDuplicates (t : Table) : Table := { t with rows := dedupRows t.rows }

/-- Column-name normalization of step 2 (line 123): strip, then uppercase. -/
def normColName (s : String) : String := pyUpper (pyStrip s)

/-- Step 2 (line 123): normalize column names. -/
def normalizeCols (t : Table) : Table := { t with cols := t.cols.map normColName }

/-- Step 3 (line 126): `df.replace({"\\N": pd.NA, " ": pd.NA, "": pd.NA})`
on one cell (the dictionary's keys are strings, so only string cells match). -/
def replCell (v : Cell) : Cell :=
  match v with
  | Cell.str s => if s = "\\N" ∨ s = " " ∨ s = "" then Cell.na else Cell.str s
  | v => v

/-- Step 3 applied to the whole table. -/
def replaceEmpty (t : Table) : Table :=
  { t with rows := t.rows.map (List.map replCell) }

/-- A decimal numeral as `pd.to_numeric` parses string input, restricted to
an optional sign, integer digits and an optional fractional part (surrounding
whitespace tolerated); anything else coerces to `NA` under
`errors="coerce"`. -/
def parseDecimal (s : String) : Option Rat :=
  let l := pyStripList s.data
  let neg : Bool := match l with
    | '-' :: _ => true
    | _ => false
  let l2 : List Char := match l with
    | '-' :: t => t
    | '+' :: t => t
    | t => t
  let ip := l2.takeWhile (fun c => c ≠ '.')
  let rest := l2.dropWhile (fun c => c ≠ '.')
  let fp : List Char := match rest with
    | [] => []
    | _ :: fp => fp
  if digitsOnly ip && digitsOnly fp && !(ip.isEmpty && fp.isEmpty) then
    let q := mkRat ((digitsToNat ip : Int) * (10 : Int) ^ fp.length + (digitsToNat fp : Int))
      ((10 : Nat) ^ fp.length)
    some (if neg then -q else q)
  else none

/-- `pd.to_numeric(·, errors="coerce")` on one cell: numbers pass through,
booleans become 1/0, `NA` stays `NA`, strings are parsed or coerced to `NA`.
Datetime cells occur only in the weather pipeline and never reach this
function in the program; they coerce to `NA` here. -/
def toNumericCell (v : Cell) : Cell :=
  match v with
  | Cell.na => Cell.na
  | Cell.num q => Cell.num q
  | Cell.bool b => Cell.num (if b then 1 else 0)
  | Cell.str s =>
    match parseDecimal s with
    | some q => Cell.num q
    | none => Cell.na
  | Cell.dt _ => Cell.na

/-- Step 4 on one cell of column `c` (lines 129-131): coerce the designated
numeric columns. -/
def numStep (c : String) (v : Cell) : Cell :=
  if NUMERIC_COLS.contains c then toNumericCell v else v

/-- Step 4 applied to the whole table. -/
def coerceNumeric (t : Table) : Table :=
  { t with rows := t.rows.map (fun r => (t.cols.zip r).map (fun p => numStep p.1 p.2)) }

/-- Line 143: `map({"SI": True, "NO": False})` on one cell (a value that is
not the string key `"SI"` or `"NO"` — a number, a boolean, `NA` — maps to
`NA`). -/
def mapSiNo (v : Cell) : Cell :=
  match v with
  | Cell.str s =>
    if s = "SI" then Cell.bool true
    else if s = "NO" then Cell.bool false
    else Cell.na
  | _ => Cell.na

/-- Line 144: `fillna(False)`. -/
def fillFalse (v : Cell) : Cell :=
  match v with
  | Cell.na => Cell.bool false
  | v => v

/-- The full binary coercion of one cell, lines 143-144. -/
def binCell (v : Cell) : Cell := fillFalse (mapSiNo v)

/-- Step 5 on one cell of column `c` (lines 141-144): coerce the designated
binary columns. -/
def binStep (c : String) (v : Cell) : Cell :=
  if BINARY_COLS.contains c then binCell v else v

/-- Step 5 applied to the whole table. -/
def coerceBinary (t : Table) : Table :=
  { t with rows := t.rows.map (fun r => (t.cols.zip r).map (fun p => binStep p.1 p.2)) }

/-- Whether a cell is the null marker (`isna`). -/
def isNA (v : Cell) : Bool := v == Cell.na

/-- Step 6 (lines 147-148): when both coordinate columns are present,
`dropna(subset=["LATITUD", "LONGITUD"])` — the pandas default `how="any"`
drops a row as soon as either subset column is `NA`. -/
def dropNoCoords (t : Table) : Table :=
  if t.cols.contains "LATITUD" && t.cols.contains "LONGITUD" then
    { t with rows := t.rows.filter (fun r =>
        !(isNA (lookupCell t.cols r "LATITUD")) && !(isNA (lookupCell t.cols r "LONGITUD"))) }
  else t

/-- Cleaning steps 1-5 (lines 118-144). -/
def cleanNoDrop (t : Table) : Table :=
  coerceBinary (coerceNumeric (replaceEmpty (normalizeCols (dropDuplicates t))))

/-- The full cleaning pipeline, steps 1-6 (lines 118-149). -/
def clean (t : Table) : Table := dropNoCoords (cleanNoDrop t)

/-- A reconciled table: canonical columns (the output contract of
`reconcile`) with rows of matching width. -/
def Reconciled (t : Table) : Prop :=
  t.cols = BASE_COLUMNS ∧ ∀ r ∈ t.rows, r.length = BASE_COLUMNS.length

/-- The combined cell transform of steps 3-5 on a cell of column `c`. -/
def trCell (c : String) (v : Cell) : Cell := binStep c (numStep c (replCell v))

/-- The row transform of steps 3-5 over the canonical columns. -/
def trRow (r : List Cell) : List Cell := List.zipWith trCell BASE_COLUMNS r

/-- The step-6 keep predicate over the canonical columns. -/
def coordOK (r : List Cell) : Bool :=
  !(isNA (lookupCell BASE_COLUMNS r "LATITUD")) &&
    !(isNA (lookupCell BASE_COLUMNS r "LONGITUD"))

/-! ### Per-file loop and concatenation (`tidy_axa_data`, lines 58-113)

The body of the per-file `try` block (lines 64-102: open, sniff, parse,
reconcile) performs file I/O, so it is abstracted as a function from a file
name to `Option Table`; `none` models any exception the `except` clause of
lines 104-105 catches, which makes the loop skip that file. -/

/-- The `for file in sorted(csv_files)` loop: each successfully parsed and
reconciled frame is appended to `dfs`; a failing file is skipped. -/
def loadTables (readFile : String → Option Table) (files : List String) : List Table :=
  files.filterMap readFile

/-- Lines 107-112: `return None` when no file was read, else
`pd.concat(dfs, ignore_index=True)` — a row-wise append in encounter order
(the reconciled frames all carry the canonical schema). -/
def tidyConcat (readFile : String → Option Table) (files : List String) : Option Table :=
  match loadTables readFile files with
  | [] => none
  | t :: ts => some { cols := t.cols, rows := ((t :: ts).map Table.rows).flatten }

/-! ### INEGI year filtering (`tidy_inegi_data`, lines 194-215) -/

/-- Lines 198-203: `int(filename.split('_')[-1].replace('.csv', ''))`,
`none` when the `int` call raises (the bare `except` skips the file). -/
def extractYear (filename : String) : Option Int :=
  pyInt (pyReplace (String.mk ((splitChar '_' filename.data).getLastD [])) ".csv" "")

/-- Lines 196-207: the files that survive both the year-token parse and the
range filter `if year < year_start or year > year_end: continue`.  (A file
that later fails `pd.read_csv` is also skipped, lines 211-218; that failure
mode is independent of the year filter modelled here.) -/
def inegiAccepted (yearStart yearEnd : Int) (files : List String) : List String :=
  files.filter (fun f =>
    match extractYear f with
    | none => false
    | some y => if y < yearStart ∨ y > yearEnd then false else true)

/-! ### Weather tidying (`tidy_weather_data`, lines 274-299) -/

/-- Modelled library behavior: `pd.to_datetime` restricted to the ISO
`"YYYY-MM-DDTHH:MM"` layout the Open-Meteo CSV carries, with the component
range checks under which such a timestamp is accepted; `none` models the
parse error `to_datetime` raises on anything else.  (Day-in-month precision
beyond `1..31` is not modelled; no claim depends on it.) -/
def toDatetime (s : String) : Option PyDateTime :=
  match splitChar 'T' s.data with
  | [d, t] =>
    match splitChar '-' d, splitChar ':' t with
    | [ys, ms, ds], [hs, mins] =>
      if digitsOnly ys && !ys.isEmpty && digitsOnly ms && !ms.isEmpty &&
         digitsOnly ds && !ds.isEmpty && digitsOnly hs && !hs.isEmpty &&
         digitsOnly mins && !mins.isEmpty then
        let y := digitsToNat ys
        let mo := digitsToNat ms
        let da := digitsToNat ds
        let h := digitsToNat hs
        let mi := digitsToNat mins
        if 1 ≤ mo ∧ mo ≤ 12 ∧ 1 ≤ da ∧ da ≤ 31 ∧ h ≤ 23 ∧ mi ≤ 59 then
          some ⟨y, mo, da, h, mi⟩
        else none
      else none
    | _, _ => none
  | _ => none

/-- The column renaming of line 285-292 (`df.rename(columns=rename_dict)`):
a name that is a key of the dictionary maps to its value, anything else is
unchanged. -/
def WEATHER_RENAME : List (String × String) :=
  [("time", "FECHA_HORA"), ("temperature_2m", "TEMPERATURA_C"), ("rain", "LLUVIA_MM"),
   ("showers", "ALTA_LLUVIA_MM"), ("visibility", "VISIBILIDAD_M")]

/-- One column name through `rename_dict`. -/
def renameCol (c : String) : String :=
  match WEATHER_RENAME.find? (fun p => p.1 == c) with
  | some p => p.2
  | none => c

/-- The cell at index `i` of a row (`NA` out of range; the pipeline only
reads indices inside the row). -/
def colValAt (i : Nat) (r : List Cell) : Cell := r.getD i Cell.na

/-- `dt.date` of line 278 (string form; its exact format is not claimed). -/
def cellDate (v : Cell) : Cell :=
  match v with
  | Cell.dt d => Cell.str (Nat.repr d.year ++ "-" ++ Nat.repr d.month ++ "-" ++ Nat.repr d.day)
  | _ => Cell.na

/-- `dt.year` of line 279. -/
def cellYear (v : Cell) : Cell :=
  match v with
  | Cell.dt d => Cell.num (d.year : Rat)
  | _ => Cell.na

/-- `dt.month` of line 280. -/
def cellMonth (v : Cell) : Cell :=
  match v with
  | Cell.dt d => Cell.num (d.month : Rat)
  | _ => Cell.na

/-- `dt.day` of line 281. -/
def cellDay (v : Cell) : Cell :=
  match v with
  | Cell.dt d => Cell.num (d.day : Rat)
  | _ => Cell.na

/-- `dt.hour` of line 282. -/
def cellHour (v : Cell) : Cell :=
  match v with
  | Cell.dt d => Cell.num (d.hour : Rat)
  | _ => Cell.na

/-- Column assignment `df[c] = f(row)`: overwrite the column when it exists,
else append it on the right (pandas assignment semantics). -/
def setCol (c : String) (f : List Cell → Cell) (t : Table) : Table :=
  match t.cols.findIdx? (fun x => x == c) with
  | some i => { cols := t.cols, rows := t.rows.map (fun r => r.set i (f r)) }
  | none => { cols := t.cols ++ [c], rows := t.rows.map (fun r => r ++ [f r]) }

/-- Line 275, per row: `df['time'] = pd.to_datetime(df['time'])`.  The raw
weather CSV holds the timestamps as strings; a non-string or unparsable
value makes `to_datetime` raise, which aborts `tidy_weather_data`. -/
def parseTimeRow (i : Nat) (r : List Cell) : Option (List Cell) :=
  match r.get? i with
  | some (Cell.str s) => (toDatetime s).map (fun d => r.set i (Cell.dt d))
  | _ => none

/-- Apply a fallible per-row transform to every row; one failure fails the
whole column operation (the uncaught exception aborts the function). -/
def mapRowsOpt (f : List Cell → Option (List Cell)) :
    List (List Cell) → Option (List (List Cell))
  | [] => some []
  | r :: rs =>
    match f r, mapRowsOpt f rs with
    | some r', some rs' => some (r' :: rs')
    | _, _ => none

/-- A stable insertion step for the row sort of line 299. -/
def insertRowBy (le : List Cell → List Cell → Bool) (r : List Cell) :
    List (List Cell) → List (List Cell)
  | [] => [r]
  | s :: t => if le r s then r :: s :: t else s :: insertRowBy le r t

/-- `sort_values` modelled as an insertion sort (the claims only use that
sorting permutes the rows). -/
def sortRowsBy (le : List Cell → List Cell → Bool) (rows : List (List Cell)) :
    List (List Cell) :=
  rows.foldr (insertRowBy le) []

/-- Ordering of two datetimes, lexicographic on the components. -/
def dtLE (a b : PyDateTime) : Bool :=
  decide ((a.year, a.month, a.day, a.hour, a.minute) ≤ (b.year, b.month, b.day, b.hour, b.minute))

/-- The `sort_values('FECHA_HORA')` key comparison; the key column always
holds datetimes at that point of the pipeline. -/
def cellLE (a b : Cell) : Bool :=
  match a, b with
  | Cell.dt x, Cell.dt y => dtLE x y
  | _, _ => true

/-- Lines 274-282 applied after the time column is parsed: append the five
derived date-component columns. -/
def weatherDerived (i : Nat) (t1 : Table) : Table :=
  setCol "HORA" (fun r => cellHour (colValAt i r))
    (setCol "DIA" (fun r => cellDay (colValAt i r))
      (setCol "MES" (fun r => cellMonth (colValAt i r))
        (setCol "AÑO" (fun r => cellYear (colValAt i r))
          (setCol "FECHA" (fun r => cellDate (colValAt i r)) t1))))

/-- Lines 285-292: rename the columns to Spanish. -/
def weatherRenamed (t6 : Table) : Table := { cols := t6.cols.map renameCol, rows := t6.rows }

/-- `tidy_weather_data`, lines 274-299: parse the `time` column, derive the
date-component columns, rename to Spanish, drop duplicates and sort by the
timestamp.  `none` models the exceptions the function does not catch
(missing `time` column, unparsable timestamp). -/
def tidyWeather (t : Table) : Option Table :=
  (t.cols.findIdx? (fun x => x == "time")).bind fun i =>
  (mapRowsOpt (parseTimeRow i) t.rows).bind fun rows1 =>
  ((weatherRenamed (weatherDerived i { cols := t.cols, rows := rows1 })).cols.findIdx?
      (fun x => x == "FECHA_HORA")).bind fun j =>
  some { cols := (weatherRenamed (weatherDerived i { cols := t.cols, rows := rows1 })).cols,
         rows := sortRowsBy (fun a b => cellLE (colValAt j a) (colValAt j b))
           (dedupRows (weatherRenamed (weatherDerived i { cols := t.cols, rows := rows1 })).rows) }

/-! ### The AXA fetcher (`make_dataset.py`, `descargar_datos_axa`, lines 38-70)

The body of the per-year `try` block (lines 47-61: HTTP download, zip
extraction, CSV parse, sentinel replacement, year tagging) is I/O against
the network, abstracted as a function from the year to `Option Table`;
`none` models any exception the `except` of lines 63-64 catches. -/

/-- `range(2018, 2025)` of line 43. -/
def AXA_YEARS : List Int := [2018, 2019, 2020, 2021, 2022, 2023, 2024]

/-- `pd.concat(dfs, ignore_index=True)`: raises
`ValueError("No objects to concatenate")` on an empty list, else appends
row-wise. -/
def pdConcat (ts : List Table) : Except String Table :=
  match ts with
  | [] => Except.error "No objects to concatenate"
  | t :: rest => Except.ok { cols := t.cols, rows := ((t :: rest).map Table.rows).flatten }

/-- `descargar_datos_axa`, lines 41-66: per-year attempts inside `try`,
concatenation OUTSIDE any error handling (line 66). -/
def descargarDatosAxa (fetchYear : Int → Option Table) : Except String Table :=
  pdConcat (AXA_YEARS.filterMap fetchYear)

/-! ### Concrete tables used by counterexamples and witnesses -/

/-- A canonical-schema row with given raw coordinate, `HOSPITALIZADO` and
`CALLE` values, `"NO"` in the other binary columns and `"x"` elsewhere. -/
def mkRow (lat lon hosp calle : String) : List Cell :=
  BASE_COLUMNS.map (fun c =>
    if c = "LATITUD" then Cell.str lat
    else if c = "LONGITUD" then Cell.str lon
    else if c = "HOSPITALIZADO" then Cell.str hosp
    else if c = "CALLE" then Cell.str calle
    else if BINARY_COLS.contains c then Cell.str "NO"
    else Cell.str "x")

/-- One reconciled row whose `HOSPITALIZADO` flag holds the token `"SI"`. -/
def tableSIFlag : Table :=
  { cols := BASE_COLUMNS, rows := [mkRow "19" "99" "SI" "a"] }

/-- Two reconciled rows that differ only in the sentinel spelling of an
empty `CALLE` (`" "` against `""`), both replaced by `NA` in step 3. -/
def tableSentinelPair : Table :=
  { cols := BASE_COLUMNS, rows := [mkRow "19" "99" "NO" " ", mkRow "19" "99" "NO" ""] }

/-- One reconciled row with nothing left to change by a second cleaning. -/
def tableStable : Table :=
  { cols := BASE_COLUMNS, rows := [mkRow "19" "99" "NO" "a"] }

/-- The spec's coordinate-filter scenario: `LATITUD = ""`,
`LONGITUD = "19.4"`. -/
def tableHalfCoord : Table :=
  { cols := BASE_COLUMNS, rows := [mkRow "" "19.4" "NO" "a"] }

/-- A small frame used to instantiate the batch-loading theorem. -/
def tinyTable : Table := { cols := ["A"], rows := [[Cell.str "1"], [Cell.str "2"]] }

/-- A reader that fails on the file `"bad"` and parses anything else. -/
def readDemo : String → Option Table :=
  fun s => if s = "bad" then none else some tinyTable

/-- `pat` occurs contiguously inside `l`. -/
def HasOcc (w l : List Char) : Prop := ∃ u v, l = u ++ w ++ v

/-- The raw Open-Meteo frame of the concrete scenario. -/
def demoWeather : Table :=
  { cols := ["time", "temperature_2m"],
    rows := [[Cell.str "2020-03-01T05:00", Cell.str "20"]] }

/-- Its tidied form. -/
def demoWeatherTidy : Table :=
  { cols := ["FECHA_HORA", "TEMPERATURA_C", "FECHA", "AÑO", "MES", "DIA", "HORA"],
    rows := [[Cell.dt ⟨2020, 3, 1, 5, 0⟩, Cell.str "20", Cell.str "2020-3-1",
      Cell.num 2020, Cell.num 3, Cell.num 1, Cell.num 5]] }

theorem map_zip_eq_zipWith {α β γ : Type} (h : α → β → γ) :
    ∀ (cs : List α) (r : List β),
      (cs.zip r).map (fun p => h p.1 p.2) = List.zipWith h cs r
  | [], _ => rfl
  | _ :: _, [] => rfl
  | c :: cs, v :: r => by
    simp only [List.zip_cons_cons, List.map_cons, List.zipWith_cons_cons]
    exact congrArg _ (map_zip_eq_zipWith h cs r)

theorem zipWith_zipWith_same {α β : Type} (g f : α → β → β) :
    ∀ (cs : List α) (r : List β),
      List.zipWith g cs (List.zipWith f cs r) = List.zipWith (fun c v => g c (f c v)) cs r
  | [], _ => rfl
  | _ :: _, [] => rfl
  | c :: cs, v :: r => by
    simp only [List.zipWith_cons_cons]
    exact congrArg _ (zipWith_zipWith_same g f cs r)

theorem zipWith_map_right_same {α β : Type} (f : α → β → β) (g : β → β) :
    ∀ (cs : List α) (r : List β),
      List.zipWith f cs (r.map g) = List.zipWith (fun c v => f c (g v)) cs r
  | [], _ => rfl
  | _ :: _, [] => rfl
  | c :: cs, v :: r => by
    simp only [List.map_cons, List.zipWith_cons_cons]
    exact congrArg _ (zipWith_map_right_same f g cs r)

theorem mem_zip_zipWith {α β : Type} (f : α → β → β) :
    ∀ (cs : List α) (r : List β) (c : α) (v : β),
      (c, v) ∈ cs.zip (List.zipWith f cs r) → ∃ w, (c, w) ∈ cs.zip r ∧ v = f c w
  | [], _, _, _ => by simp
  | _ :: _, [], _, _ => by simp
  | c' :: cs, w' :: r, c, v => by
    simp only [List.zipWith_cons_cons, List.zip_cons_cons, List.mem_cons, Prod.mk.injEq]
    rintro (⟨rfl, rfl⟩ | h)
    · exact ⟨w', Or.inl ⟨rfl, rfl⟩, rfl⟩
    · obtain ⟨w, hw, rfl⟩ := mem_zip_zipWith f cs r c v h
      exact ⟨w, Or.inr hw, rfl⟩

theorem zipWith_congr_pairs {α β γ : Type} (f g : α → β → γ) :
    ∀ (cs : List α) (r : List β),
      (∀ p ∈ cs.zip r, f p.1 p.2 = g p.1 p.2) →
      List.zipWith f cs r = List.zipWith g cs r
  | [], _, _ => rfl
  | _ :: _, [], _ => rfl
  | c :: cs, v :: r, h => by
    simp only [List.zipWith_cons_cons]
    refine congrArg₂ _ (h (c, v) (List.mem_cons_self _ _)) ?_
    exact zipWith_congr_pairs f g cs r (fun p hp => h p (List.mem_cons_of_mem _ hp))

theorem dedupRows_subset : ∀ (l : List (List Cell)), ∀ x ∈ dedupRows l, x ∈ l
  | [], x, hx => by simp [dedupRows] at hx
  | r :: rs, x, hx => by
    simp only [dedupRows, List.mem_cons, List.mem_filter] at hx
    rcases hx with rfl | ⟨hx, _⟩
    · exact List.mem_cons_self _ _
    · exact List.mem_cons_of_mem _ (dedupRows_subset rs x hx)

theorem dedupRows_eq_self : ∀ (l : List (List Cell)), l.Nodup → dedupRows l = l
  | [], _ => rfl
  | r :: rs, h => by
    obtain ⟨hr, hrs⟩ := List.nodup_cons.mp h
    simp only [dedupRows, dedupRows_eq_self rs hrs]
    refine congrArg _ (List.filter_eq_self.mpr ?_)
    intro a ha
    simp only [ne_eq, decide_eq_true_eq]
    rintro rfl
    exact hr ha

theorem norm_BASE : BASE_COLUMNS.map normColName = BASE_COLUMNS := by decide

theorem replCell_replCell (v : Cell) : replCell (replCell v) = replCell v := by
  cases v <;> simp only [replCell]
  rename_i s
  by_cases h : s = "\\N" ∨ s = " " ∨ s = ""
  · simp [h, replCell]
  · simp [h, replCell]

theorem toNumericCell_toNumericCell (v : Cell) :
    toNumericCell (toNumericCell v) = toNumericCell v := by
  cases v <;> simp only [toNumericCell]
  rename_i s
  cases parseDecimal s <;> simp [toNumericCell]

theorem replCell_toNumericCell (v : Cell) :
    replCell (toNumericCell v) = toNumericCell v := by
  cases v <;> simp only [toNumericCell, replCell]
  rename_i s
  cases parseDecimal s <;> simp [replCell]

theorem binCell_shape (v : Cell) : ∃ b, binCell v = Cell.bool b := by
  cases v
  case str s =>
    by_cases h1 : s = "SI"
    · exact ⟨true, by simp [binCell, mapSiNo, h1, fillFalse]⟩
    · by_cases h2 : s = "NO"
      · exact ⟨false, by simp [binCell, mapSiNo, h1, h2, fillFalse]⟩
      · exact ⟨false, by simp [binCell, mapSiNo, h1, h2, fillFalse]⟩
  all_goals exact ⟨false, rfl⟩

theorem trCell_idem (c : String) (v : Cell)
    (hb : BINARY_COLS.contains c = true → trCell c v = Cell.bool false) :
    trCell c (trCell c v) = trCell c v := by
  cases hbc : BINARY_COLS.contains c with
  | true =>
    rw [hb hbc]
    show binStep c (numStep c (replCell (Cell.bool false))) = Cell.bool false
    have hrepl : replCell (Cell.bool false) = Cell.bool false := rfl
    rw [hrepl]
    unfold numStep binStep
    rw [hbc]
    cases hnc : NUMERIC_COLS.contains c <;> rfl
  | false =>
    cases hnc : NUMERIC_COLS.contains c with
    | true =>
      simp only [trCell, binStep, numStep, hbc, hnc, if_true, if_false, Bool.false_eq_true,
        replCell_toNumericCell, toNumericCell_toNumericCell]
    | false =>
      simp only [trCell, binStep, numStep, hbc, hnc, if_true, if_false, Bool.false_eq_true,
        replCell_replCell]

theorem zip_zipWith_mem {α β : Type} (f : α → β → β) :
    ∀ (cs : List α) (r : List β) (c : α) (w : β),
      (c, w) ∈ cs.zip r → (c, f c w) ∈ cs.zip (List.zipWith f cs r)
  | [], _, _, _ => by simp
  | _ :: _, [], _, _ => by simp
  | c' :: cs, w' :: r, c, w => by
    simp only [List.zip_cons_cons, List.zipWith_cons_cons, List.mem_cons, Prod.mk.injEq]
    rintro (⟨rfl, rfl⟩ | h)
    · exact Or.inl ⟨rfl, rfl⟩
    · exact Or.inr (zip_zipWith_mem f cs r c w h)

theorem cleanNoDrop_spec (t : Table) (hc : t.cols = BASE_COLUMNS) :
    cleanNoDrop t = { cols := BASE_COLUMNS, rows := (dedupRows t.rows).map trRow } := by
  unfold cleanNoDrop coerceBinary coerceNumeric replaceEmpty normalizeCols dropDuplicates
  simp only [hc, norm_BASE, List.map_map]
  refine congrArg (Table.mk BASE_COLUMNS) ?_
  refine List.map_congr_left ?_
  intro r _
  show (BASE_COLUMNS.zip
      ((BASE_COLUMNS.zip ((List.map replCell) r)).map (fun p => numStep p.1 p.2))).map
      (fun p => binStep p.1 p.2) = trRow r
  rw [map_zip_eq_zipWith, map_zip_eq_zipWith, zipWith_map_right_same, zipWith_zipWith_same]
  rfl

theorem clean_spec (t : Table) (hc : t.cols = BASE_COLUMNS) :
    clean t = { cols := BASE_COLUMNS,
                rows := ((dedupRows t.rows).map trRow).filter coordOK } := by
  unfold clean dropNoCoords
  rw [cleanNoDrop_spec t hc]
  rw [if_pos (by decide : ((BASE_COLUMNS.contains "LATITUD" && BASE_COLUMNS.contains "LONGITUD") = true))]
  rfl

theorem coordOK_iff (r : List Cell) :
    coordOK r = true ↔
      lookupCell BASE_COLUMNS r "LATITUD" ≠ Cell.na ∧
        lookupCell BASE_COLUMNS r "LONGITUD" ≠ Cell.na := by
  simp [coordOK, isNA, Bool.and_eq_true, Bool.not_eq_true']

theorem trRow_trRow (r0 : List Cell)
    (hbin : ∀ p ∈ BASE_COLUMNS.zip (trRow r0),
      BINARY_COLS.contains p.1 = true → p.2 = Cell.bool false) :
    trRow (trRow r0) = trRow r0 := by
  unfold trRow
  rw [zipWith_zipWith_same]
  refine zipWith_congr_pairs _ _ _ _ ?_
  intro p hp
  refine trCell_idem p.1 p.2 ?_
  intro hbc
  exact hbin (p.1, trCell p.1 p.2) (zip_zipWith_mem trCell _ _ _ _ hp) hbc

/-! ### C1 -/

/-- C1 (amended): the cleaning pipeline is idempotent on every reconciled
table whose cleaned form has no duplicate rows and carries `false` in every
designated binary column. -/
theorem clean_idempotent_of_stable (t : Table) (ht : Reconciled t)
    (hnd : (clean t).rows.Nodup)
    (hbin : ∀ r ∈ (clean t).rows, ∀ p ∈ BASE_COLUMNS.zip r,
      BINARY_COLS.contains p.1 = true → p.2 = Cell.bool false) :
    clean (clean t) = clean t := by
  obtain ⟨hc, -⟩ := ht
  have h1 := clean_spec t hc
  have hrows : (clean t).rows = ((dedupRows t.rows).map trRow).filter coordOK := by
    rw [h1]
  have hcols : (clean t).cols = BASE_COLUMNS := by rw [h1]
  have h2 := clean_spec (clean t) hcols
  rw [h2, hrows]
  rw [dedupRows_eq_self _ (hrows ▸ hnd)]
  have hmap : (((dedupRows t.rows).map trRow).filter coordOK).map trRow
      = ((dedupRows t.rows).map trRow).filter coordOK := by
    refine (List.map_congr_left ?_).trans (List.map_id _)
    intro r hr
    obtain ⟨r0, _, rfl⟩ := List.mem_map.mp (List.mem_filter.mp hr).1
    refine trRow_trRow r0 ?_
    intro p hp hbc
    exact hbin (trRow r0) (hrows ▸ hr) p hp hbc
  rw [hmap]
  have hfil : (((dedupRows t.rows).map trRow).filter coordOK).filter coordOK
      = ((dedupRows t.rows).map trRow).filter coordOK :=
    List.filter_eq_self.mpr (fun r hr => (List.mem_filter.mp hr).2)
  rw [hfil, ← hrows, ← hcols]

/-- C1 counterexample: `clean` is not idempotent as claimed.  A reconciled
row whose binary flag holds `"SI"` is mapped to `true` by the first cleaning
and to `false` by the second (`map({"SI": True, "NO": False})` sends `True`
to `NaN`, then `fillna(False)`); and two reconciled rows that differ only in
the spelling of an empty sentinel collapse to equal rows whose duplicate is
only removed by the second cleaning. -/
theorem clean_not_idempotent :
    clean (clean tableSIFlag) ≠ clean tableSIFlag ∧
    clean (clean tableSentinelPair) ≠ clean tableSentinelPair ∧
    Reconciled tableSIFlag ∧ Reconciled tableSentinelPair := by
  refine ⟨by decide, by decide, ⟨by decide, by decide⟩, ⟨by decide, by decide⟩⟩

/-- C1 witness: the amended idempotence at a concrete reconciled table. -/
theorem clean_idempotent_witness :
    Reconciled tableStable ∧ clean (clean tableStable) = clean tableStable :=
  ⟨⟨by decide, by decide⟩,
    clean_idempotent_of_stable tableStable ⟨by decide, by decide⟩ (by decide) (by decide)⟩

/-! ### C2 -/

/-- C2 (amended): with the coordinate-bearing canonical schema in use, the
cleaner keeps exactly the rows whose `LATITUD` and `LONGITUD` are BOTH
non-null after coercion — a row missing at least one of the two is
dropped. -/
theorem clean_keeps_row_iff_both_coords (t : Table) (hc : t.cols = BASE_COLUMNS)
    (r : List Cell) :
    r ∈ (clean t).rows ↔
      r ∈ (cleanNoDrop t).rows ∧ lookupCell BASE_COLUMNS r "LATITUD" ≠ Cell.na ∧
        lookupCell BASE_COLUMNS r "LONGITUD" ≠ Cell.na := by
  rw [clean_spec t hc, cleanNoDrop_spec t hc]
  show r ∈ (((dedupRows t.rows).map trRow).filter coordOK) ↔ _
  rw [List.mem_filter, coordOK_iff]

/-- C2 counterexample: the spec's own scenario row, `LATITUD = ""` and
`LONGITUD = "19.4"`, has one coordinate present after steps 1-5 and is
nevertheless dropped by step 6, so "at least one coordinate present is
retained" is false. -/
theorem coord_filter_drops_half_present :
    (cleanNoDrop tableHalfCoord).rows.length = 1 ∧
    lookupCell BASE_COLUMNS ((cleanNoDrop tableHalfCoord).rows.headD []) "LONGITUD" ≠ Cell.na ∧
    (clean tableHalfCoord).rows = [] := by
  refine ⟨by decide, by decide, by decide⟩

/-- C2 witness: the keep-iff-both-coordinates characterization at the
concrete scenario table. -/
theorem clean_keeps_row_iff_both_coords_witness :
    tableHalfCoord.cols = BASE_COLUMNS ∧
    ((cleanNoDrop tableHalfCoord).rows.headD [] ∈ (clean tableHalfCoord).rows ↔
      (cleanNoDrop tableHalfCoord).rows.headD [] ∈ (cleanNoDrop tableHalfCoord).rows ∧
      lookupCell BASE_COLUMNS ((cleanNoDrop tableHalfCoord).rows.headD []) "LATITUD" ≠ Cell.na ∧
      lookupCell BASE_COLUMNS ((cleanNoDrop tableHalfCoord).rows.headD []) "LONGITUD" ≠ Cell.na) :=
  ⟨by decide, clean_keeps_row_iff_both_coords tableHalfCoord (by decide) _⟩

/-! ### C3 -/

/-- C3: after cleaning, every designated binary cell is exactly `true` or
`false`; the token `"SI"` maps to `true` and every other value — `"NO"`,
null, anything else — resolves to `false`. -/
theorem binary_flags_boolean (t : Table) (hc : t.cols = BASE_COLUMNS) :
    (∀ r ∈ (clean t).rows, ∀ p ∈ BASE_COLUMNS.zip r,
        BINARY_COLS.contains p.1 = true → p.2 = Cell.bool true ∨ p.2 = Cell.bool false)
    ∧ binCell (Cell.str "SI") = Cell.bool true
    ∧ (∀ v, v ≠ Cell.str "SI" → binCell v = Cell.bool false) := by
  refine ⟨?_, rfl, ?_⟩
  · intro r hr p hp hbc
    rw [clean_spec t hc] at hr
    obtain ⟨r0, _, rfl⟩ := List.mem_map.mp (List.mem_filter.mp hr).1
    obtain ⟨w, _, hw⟩ := mem_zip_zipWith trCell _ _ p.1 p.2 hp
    rw [hw]
    have htr : trCell p.1 w = binCell (numStep p.1 (replCell w)) := by
      unfold trCell binStep
      rw [hbc]
      rfl
    rw [htr]
    obtain ⟨b, hb⟩ := binCell_shape (numStep p.1 (replCell w))
    rw [hb]
    cases b
    · right; rfl
    · left; rfl
  · intro v hv
    cases v
    case str s =>
      have hs : s ≠ "SI" := by rintro rfl; exact hv rfl
      by_cases h2 : s = "NO"
      · simp [binCell, mapSiNo, hs, h2, fillFalse]
      · simp [binCell, mapSiNo, hs, h2, fillFalse]
    all_goals rfl

/-- C3 witness: the binary-column invariant at a concrete reconciled
table. -/
theorem binary_flags_boolean_witness :
    tableSIFlag.cols = BASE_COLUMNS ∧
    (∀ r ∈ (clean tableSIFlag).rows, ∀ p ∈ BASE_COLUMNS.zip r,
        BINARY_COLS.contains p.1 = true → p.2 = Cell.bool true ∨ p.2 = Cell.bool false) :=
  ⟨by decide, (binary_flags_boolean tableSIFlag (by decide)).1⟩

/-! ### C5 -/

/-- C5: every row of the cleaned incident table carries both coordinates
non-null. -/
theorem clean_rows_have_coords (t : Table) (hc : t.cols = BASE_COLUMNS) :
    ∀ r ∈ (clean t).rows,
      lookupCell (clean t).cols r "LATITUD" ≠ Cell.na ∧
      lookupCell (clean t).cols r "LONGITUD" ≠ Cell.na := by
  intro r hr
  rw [clean_spec t hc] at hr ⊢
  exact (coordOK_iff r).mp (List.mem_filter.mp hr).2

/-- C5 witness: the coordinate invariant at a concrete reconciled table
whose cleaned form is nonempty. -/
theorem clean_rows_have_coords_witness :
    tableStable.cols = BASE_COLUMNS ∧ (clean tableStable).rows.length = 1 ∧
    (∀ r ∈ (clean tableStable).rows,
      lookupCell (clean tableStable).cols r "LATITUD" ≠ Cell.na ∧
      lookupCell (clean tableStable).cols r "LONGITUD" ≠ Cell.na) :=
  ⟨by decide, by decide, clean_rows_have_coords tableStable (by decide)⟩

/-! ### C4: reconciliation lemmas -/

theorem zip_map_fst_snd {α β : Type} :
    ∀ (M : List (α × β)), (M.map Prod.fst).zip (M.map Prod.snd) = M
  | [] => rfl
  | a :: M => by
    simp only [List.map_cons, List.zip_cons_cons, zip_map_fst_snd M]

theorem filter_zip_map_fst {α β : Type} (q : α → Bool) :
    ∀ (a : List α) (b : List β), a.length = b.length →
      ((a.zip b).filter (fun p => q p.1)).map Prod.fst = a.filter q
  | [], [], _ => rfl
  | [], _ :: _, h => by cases h
  | _ :: _, [], h => by cases h
  | x :: a, y :: b, h => by
    have h' : a.length = b.length := Nat.succ_injective h
    have ih := filter_zip_map_fst q a b h'
    simp only [List.zip_cons_cons, List.filter_cons]
    cases hq : q x <;> simp [hq, ih]

theorem snd_zip_self_map {α β : Type} (f : α → β) :
    ∀ (l : List α), ∀ p ∈ l.zip (l.map f), p.2 = f p.1
  | [], p, hp => by simp at hp
  | a :: l, p, hp => by
    simp only [List.map_cons, List.zip_cons_cons, List.mem_cons] at hp
    rcases hp with rfl | hp
    · rfl
    · exact snd_zip_self_map f l p hp

theorem find?_filter_of_imp {α : Type} (p q : α → Bool) (h : ∀ x, p x = true → q x = true) :
    ∀ (l : List α), (l.filter q).find? p = l.find? p
  | [] => rfl
  | a :: l => by
    cases hq : q a with
    | true =>
      rw [List.filter_cons_of_pos hq]
      cases hp : p a <;> simp [List.find?_cons, hp, find?_filter_of_imp p q h l]
    | false =>
      have hp : p a = false := by
        cases hpa : p a with
        | true => rw [h a hpa] at hq; cases hq
        | false => rfl
      rw [List.filter_cons_of_neg (by simp [hq])]
      simp [List.find?_cons, hp, find?_filter_of_imp p q h l]

theorem find?_fst_eq_some {β : Type} (c : String) (L : List (String × β))
    (h : c ∈ L.map Prod.fst) :
    ∃ p, L.find? (fun p => p.1 == c) = some p ∧ p.1 = c ∧ p ∈ L := by
  obtain ⟨a, haL, hac⟩ := List.mem_map.mp h
  have hsome : (L.find? (fun p => p.1 == c)).isSome := by
    rw [List.find?_isSome]
    exact ⟨a, haL, by simp [hac]⟩
  obtain ⟨p, hp⟩ := Option.isSome_iff_exists.mp hsome
  refine ⟨p, hp, ?_, List.mem_of_find?_eq_some hp⟩
  have := List.find?_some hp
  simpa using this

theorem find?_fst_eq_none {β : Type} (c : String) (L : List (String × β))
    (h : c ∉ L.map Prod.fst) :
    L.find? (fun p => p.1 == c) = none := by
  rw [List.find?_eq_none]
  intro x hx
  simp only [beq_iff_eq]
  rintro rfl
  exact h (List.mem_map.mpr ⟨x, hx, rfl⟩)

theorem lookup_reconciled_row (cols : List String) (r : List Cell) (c : String)
    (hlen : r.length = cols.length) (hcB : c ∈ BASE_COLUMNS) :
    lookupCell ((cols ++ missingOf cols).filter (fun x => BASE_COLUMNS.contains x))
      ((((cols ++ missingOf cols).zip (r ++ (missingOf cols).map (fun _ => Cell.na))).filter
          (fun p => BASE_COLUMNS.contains p.1)).map Prod.snd)
      c
    = if cols.contains c then lookupCell cols r c else Cell.na := by
  have hkeep : BASE_COLUMNS.contains c = true := by
    simpa using hcB
  have hlen2 : (cols ++ missingOf cols).length
      = (r ++ (missingOf cols).map (fun _ => Cell.na)).length := by
    simp [hlen]
  have hcolsfil : (((cols ++ missingOf cols).zip
        (r ++ (missingOf cols).map (fun _ => Cell.na))).filter
          (fun p => BASE_COLUMNS.contains p.1)).map Prod.fst
      = (cols ++ missingOf cols).filter (fun x => BASE_COLUMNS.contains x) :=
    filter_zip_map_fst _ _ _ hlen2
  unfold lookupCell
  rw [← hcolsfil, zip_map_fst_snd]
  rw [find?_filter_of_imp _ _ (fun p hp => by
    have : p.1 = c := by simpa using hp
    rw [this]; exact hkeep)]
  rw [List.zip_append hlen.symm, List.find?_append]
  cases hct : cols.contains c with
  | true =>
    have hcmem : c ∈ cols := by simpa using hct
    have hfst : (cols.zip r).map Prod.fst = cols :=
      List.map_fst_zip _ _ (le_of_eq hlen.symm)
    obtain ⟨p, hp, hpc, hpL⟩ := find?_fst_eq_some c (cols.zip r) (by rw [hfst]; exact hcmem)
    rw [hp]
    rfl
  | false =>
    have hcnot : c ∉ cols := by simpa using hct
    have hfst : (cols.zip r).map Prod.fst = cols :=
      List.map_fst_zip _ _ (le_of_eq hlen.symm)
    rw [find?_fst_eq_none c (cols.zip r) (by rw [hfst]; exact hcnot)]
    have hm : c ∈ missingOf cols := by
      unfold missingOf
      rw [List.mem_filter]
      exact ⟨hcB, by simp [hcnot]⟩
    have hfst2 : ((missingOf cols).zip ((missingOf cols).map (fun _ => Cell.na))).map Prod.fst
        = missingOf cols :=
      List.map_fst_zip _ _ (by simp)
    obtain ⟨p, hp, hpc, hpL⟩ := find?_fst_eq_some c _ (by rw [hfst2]; exact hm)
    rw [Option.none_or, hp]
    exact snd_zip_self_map _ _ _ hpL

/-- C4 (amended): reconciliation yields exactly the canonical schema — which
has 44 columns — in canonical order: a canonical column present in the
parsed frame keeps its values, an absent one is null-filled for every row,
parsed columns outside the schema are dropped, and the row count is
preserved.  The hypotheses say the parsed frame is rectangular with
duplicate-free column labels (pandas mangles duplicate header labels on
parse; under duplicates, label selection would not be the first-match
lookup modelled here). -/
theorem reconcile_canonical_schema (t : Table) (hnd : t.cols.Nodup)
    (hlen : ∀ r ∈ t.rows, r.length = t.cols.length) :
    BASE_COLUMNS.length = 44 ∧
    (reconcile t).cols = BASE_COLUMNS ∧
    (reconcile t).rows.length = t.rows.length ∧
    (reconcile t).rows = t.rows.map (fun r => BASE_COLUMNS.map (fun c =>
      if t.cols.contains c then lookupCell t.cols r c else Cell.na)) := by
  refine ⟨by decide, rfl, ?_, ?_⟩
  · unfold reconcile selectCols dropExtra addMissing
    simp [List.length_map]
  · unfold reconcile selectCols dropExtra addMissing
    simp only [List.map_map]
    refine List.map_congr_left ?_
    intro r hr
    simp only [Function.comp]
    refine List.map_congr_left ?_
    intro c hc
    exact lookup_reconciled_row t.cols r c (hlen r hr) hc

/-- C4 counterexample: the canonical schema holds 44 columns, not 43, so a
reconciled table's column set cannot equal a 43-column schema; concretely,
reconciling an empty-schema table yields 44 columns. -/
theorem canonical_schema_not_43 :
    BASE_COLUMNS.length = 44 ∧
    (reconcile { cols := [], rows := [[]] }).cols.length ≠ 43 := by
  refine ⟨by decide, by decide⟩

/-- C4 witness: the characterization at a concrete headerless-style frame
with one extra and many missing columns. -/
theorem reconcile_canonical_schema_witness :
    (["LATITUD", "FOO"] : List String).Nodup ∧
    (reconcile { cols := ["LATITUD", "FOO"], rows := [[Cell.str "1", Cell.str "2"]] }).cols
      = BASE_COLUMNS :=
  ⟨by decide,
    (reconcile_canonical_schema { cols := ["LATITUD", "FOO"], rows := [[Cell.str "1", Cell.str "2"]] }
      (by decide) (by decide)).2.1⟩

/-! ### C6 -/

/-- C6: a file whose parse fails is skipped while every other file still
loads, in encounter order; the concatenated frame stacks the accepted
frames' rows in that order, so its row count is the sum of their individual
row counts. -/
theorem skip_failed_file_concat (readFile : String → Option Table)
    (xs ys : List String) (b : String) (hb : readFile b = none)
    (files : List String) (u : Table) (hu : tidyConcat readFile files = some u) :
    loadTables readFile (xs ++ b :: ys) = loadTables readFile xs ++ loadTables readFile ys ∧
    u.rows = ((loadTables readFile files).map Table.rows).flatten ∧
    u.rows.length = ((loadTables readFile files).map (fun v => v.rows.length)).sum := by
  have hrows : u.rows = ((loadTables readFile files).map Table.rows).flatten := by
    unfold tidyConcat at hu
    cases h : loadTables readFile files with
    | nil => rw [h] at hu; cases hu
    | cons t ts =>
      rw [h] at hu
      cases hu
      rfl
  refine ⟨?_, hrows, ?_⟩
  · unfold loadTables
    rw [List.filterMap_append, List.filterMap_cons, hb]
  · rw [hrows, List.length_flatten, List.map_map]
    rfl

/-- C6 witness: the loading and concatenation facts at a concrete reader
with one failing file. -/
theorem skip_failed_file_concat_witness :
    loadTables readDemo (["f1"] ++ "bad" :: ["f2"])
      = loadTables readDemo ["f1"] ++ loadTables readDemo ["f2"] ∧
    (Table.mk ["A"] [[Cell.str "1"], [Cell.str "2"], [Cell.str "1"], [Cell.str "2"]]).rows
      = ((loadTables readDemo ["f1", "f2"]).map Table.rows).flatten ∧
    (Table.mk ["A"] [[Cell.str "1"], [Cell.str "2"], [Cell.str "1"], [Cell.str "2"]]).rows.length
      = ((loadTables readDemo ["f1", "f2"]).map (fun v => v.rows.length)).sum :=
  skip_failed_file_concat readDemo ["f1"] ["f2"] "bad" (by decide) ["f1", "f2"]
    (Table.mk ["A"] [[Cell.str "1"], [Cell.str "2"], [Cell.str "1"], [Cell.str "2"]]) (by decide)

/-! ### C9 -/

/-- C9: the INEGI adapter keeps exactly the files whose filename-embedded
year parses and lies inside the configured inclusive range; in particular
`atus_anual_2019.csv` is excluded under the range (2020, 2024),
`atus_anual_2021.csv` is included, and a filename with an unparsable year
token is skipped. -/
theorem inegi_year_filter :
    (∀ (ys ye : Int) (files : List String) (f : String),
      f ∈ inegiAccepted ys ye files ↔
        f ∈ files ∧ ∃ y, extractYear f = some y ∧ ys ≤ y ∧ y ≤ ye) ∧
    extractYear "atus_anual_2019.csv" = some 2019 ∧
    extractYear "atus_anual_2021.csv" = some 2021 ∧
    extractYear "atus_anual_extra.csv" = none ∧
    inegiAccepted 2020 2024
        ["atus_anual_2019.csv", "atus_anual_2021.csv", "atus_anual_extra.csv"]
      = ["atus_anual_2021.csv"] := by
  refine ⟨?_, by decide, by decide, by decide, by decide⟩
  intro ys ye files f
  unfold inegiAccepted
  rw [List.mem_filter]
  constructor
  · rintro ⟨hf, hp⟩
    refine ⟨hf, ?_⟩
    revert hp
    cases h : extractYear f with
    | none => intro hp; cases hp
    | some y =>
      intro hp
      have hp' : (if y < ys ∨ y > ye then false else true) = true := hp
      refine ⟨y, rfl, ?_, ?_⟩ <;>
      · by_cases h1 : y < ys ∨ y > ye
        · rw [if_pos h1] at hp'; cases hp'
        · omega
  · rintro ⟨hf, y, hy, h1, h2⟩
    refine ⟨hf, ?_⟩
    rw [hy]
    show (if y < ys ∨ y > ye then false else true) = true
    rw [if_neg (by omega)]

/-! ### C10 -/

/-- C10: the AXA fetcher's per-year failures are tolerated, but its
concatenation stands outside the per-year `try`: when every year fails, the
loop accumulates nothing and `pd.concat` raises; when at least one year
succeeds, the fetcher completes. -/
theorem axa_concat_raises_iff_no_year (fetchYear : Int → Option Table) :
    ((∀ y ∈ AXA_YEARS, fetchYear y = none) →
      descargarDatosAxa fetchYear = Except.error "No objects to concatenate") ∧
    (∀ y ∈ AXA_YEARS, ∀ tb, fetchYear y = some tb →
      ∃ u, descargarDatosAxa fetchYear = Except.ok u) := by
  constructor
  · intro h
    unfold descargarDatosAxa
    rw [List.filterMap_eq_nil_iff.mpr h]
    rfl
  · intro y hy tb htb
    have hmem : tb ∈ AXA_YEARS.filterMap fetchYear := List.mem_filterMap.mpr ⟨y, hy, htb⟩
    unfold descargarDatosAxa pdConcat
    cases h : AXA_YEARS.filterMap fetchYear with
    | nil => rw [h] at hmem; cases hmem
    | cons a as => exact ⟨_, rfl⟩

/-! ### C7: header detection and delimiter sniffing -/

theorem isPrefixOf_eq_true : ∀ (p l : List Char), p.isPrefixOf l = true ↔ ∃ v, l = p ++ v
  | [], l => by simp [List.isPrefixOf]
  | a :: p, [] => by simp [List.isPrefixOf]
  | a :: p, b :: l => by
    simp only [List.isPrefixOf, Bool.and_eq_true, beq_iff_eq, isPrefixOf_eq_true p l,
      List.cons_append, List.cons.injEq]
    constructor
    · rintro ⟨rfl, v, rfl⟩
      exact ⟨v, rfl, rfl⟩
    · rintro ⟨v, rfl, rfl⟩
      exact ⟨rfl, v, rfl⟩

theorem containsSeq_iff (pat : List Char) :
    ∀ (l : List Char), containsSeq pat l = true ↔ HasOcc pat l
  | [] => by
    simp only [containsSeq, List.isEmpty_iff, HasOcc]
    constructor
    · rintro rfl
      exact ⟨[], [], rfl⟩
    · rintro ⟨u, v, h⟩
      rcases List.append_eq_nil.mp h.symm with ⟨h1, h2⟩
      exact (List.append_eq_nil.mp h1).2
  | c :: t => by
    simp only [containsSeq, Bool.or_eq_true, isPrefixOf_eq_true, containsSeq_iff pat t, HasOcc]
    constructor
    · rintro (⟨v, h⟩ | ⟨u, v, h⟩)
      · exact ⟨[], v, by simpa using h⟩
      · exact ⟨c :: u, v, by simp [h]⟩
    · rintro ⟨u, v, h⟩
      cases u with
      | nil => exact Or.inl ⟨v, by simpa using h⟩
      | cons x u' =>
        simp only [List.cons_append, List.cons.injEq] at h
        exact Or.inr ⟨u', v, h.2⟩

theorem hasOcc_map_iff (f : Char → Char) (P l : List Char) :
    HasOcc P (l.map f) ↔ ∃ w, HasOcc w l ∧ w.map f = P := by
  constructor
  · rintro ⟨u, v, h⟩
    rw [List.append_assoc, List.map_eq_append_iff] at h
    obtain ⟨a, bc, rfl, ha, hbc⟩ := h
    rw [List.map_eq_append_iff] at hbc
    obtain ⟨b, c, rfl, hb, hc⟩ := hbc
    exact ⟨b, ⟨a, c, by rw [List.append_assoc]⟩, hb⟩
  · rintro ⟨w, ⟨u, v, rfl⟩, rfl⟩
    exact ⟨u.map f, v.map f, by simp⟩

theorem space_upper_fix (c : Char) (h : isSpaceChar c = true) : pyUpperChar c = c := by
  unfold isSpaceChar at h
  simp only [Bool.or_eq_true, decide_eq_true_eq] at h
  rcases h with ((((rfl | rfl) | rfl) | rfl) | rfl) | rfl <;> decide

theorem not_space_of_map {w P : List Char} (h : w.map pyUpperChar = P)
    (hP : ∀ x ∈ P, isSpaceChar x = false) : ∀ c ∈ w, isSpaceChar c = false := by
  intro c hc
  cases hs : isSpaceChar c with
  | false => rfl
  | true =>
    exfalso
    have hup : pyUpperChar c = c := space_upper_fix c hs
    have hmem : pyUpperChar c ∈ P := h ▸ List.mem_map_of_mem pyUpperChar hc
    rw [hup] at hmem
    rw [hP c hmem] at hs
    cases hs

theorem hasOcc_dropWhile (p : Char → Bool) (wc : Char) (wt : List Char)
    (hwc : p wc = false) :
    ∀ (l : List Char), HasOcc (wc :: wt) l → HasOcc (wc :: wt) (l.dropWhile p)
  | [], h => by
    obtain ⟨u, v, h⟩ := h
    cases u <;> simp at h
  | c :: l, h => by
    rw [List.dropWhile_cons]
    cases hc : p c with
    | false => simpa [hc] using h
    | true =>
      simp only [hc, if_true]
      obtain ⟨u, v, h⟩ := h
      cases u with
      | nil =>
        simp only [List.nil_append, List.cons_append, List.cons.injEq] at h
        rw [h.1] at hc
        rw [hwc] at hc
        cases hc
      | cons x u' =>
        simp only [List.cons_append, List.cons.injEq] at h
        exact hasOcc_dropWhile p wc wt hwc l ⟨u', v, h.2⟩

theorem hasOcc_reverse {w l : List Char} (h : HasOcc w l) : HasOcc w.reverse l.reverse := by
  obtain ⟨u, v, rfl⟩ := h
  exact ⟨v.reverse, u.reverse, by simp [List.reverse_append, List.append_assoc]⟩

theorem strip_decomp (l : List Char) : ∃ u v, l = u ++ pyStripList l ++ v := by
  refine ⟨l.takeWhile isSpaceChar,
    ((l.dropWhile isSpaceChar).reverse.takeWhile isSpaceChar).reverse, ?_⟩
  unfold pyStripList
  conv_lhs => rw [← List.takeWhile_append_dropWhile isSpaceChar l]
  rw [List.append_assoc]
  refine congrArg _ ?_
  conv_lhs => rw [← List.reverse_reverse (l.dropWhile isSpaceChar)]
  conv_lhs =>
    rw [← List.takeWhile_append_dropWhile isSpaceChar (l.dropWhile isSpaceChar).reverse]
  rw [List.reverse_append]

theorem hasOcc_strip {w : List Char} (hw : w ≠ [])
    (hns : ∀ c ∈ w, isSpaceChar c = false) (l : List Char)
    (h : HasOcc w l) : HasOcc w (pyStripList l) := by
  obtain ⟨wc, wt, rfl⟩ := List.exists_cons_of_ne_nil hw
  have h1 : HasOcc (wc :: wt) (l.dropWhile isSpaceChar) :=
    hasOcc_dropWhile _ wc wt (hns wc (List.mem_cons_self _ _)) l h
  have h2 := hasOcc_reverse h1
  have hrne : (wc :: wt).reverse ≠ [] := by simp
  obtain ⟨c', t', hrev⟩ := List.exists_cons_of_ne_nil hrne
  have hc' : isSpaceChar c' = false := by
    refine hns c' ?_
    have hcm : c' ∈ (wc :: wt).reverse := by rw [hrev]; exact List.mem_cons_self _ _
    exact List.mem_reverse.mp hcm
  rw [hrev] at h2
  have h3 := hasOcc_dropWhile _ c' t' hc' _ h2
  have h4 := hasOcc_reverse h3
  rw [← hrev, List.reverse_reverse] at h4
  exact h4

/-- The `"SINIESTRO"` token and its characters (no whitespace among them). -/
theorem siniestro_no_space : ∀ x ∈ "SINIESTRO".data, isSpaceChar x = false := by decide

theorem hasHeader_iff (line : String) :
    hasHeader line = true ↔
      ∃ w u v, line.data = u ++ w ++ v ∧ w.map pyUpperChar = "SINIESTRO".data := by
  unfold hasHeader pyContains pyUpper pyStrip
  rw [containsSeq_iff]
  show HasOcc "SINIESTRO".data ((pyStripList line.data).map pyUpperChar) ↔ _
  rw [hasOcc_map_iff]
  constructor
  · rintro ⟨w, ⟨u', v', hocc⟩, hmap⟩
    obtain ⟨a, b, hl⟩ := strip_decomp line.data
    refine ⟨w, a ++ u', v' ++ b, ?_, hmap⟩
    rw [hl, hocc]
    simp [List.append_assoc]
  · rintro ⟨w, u, v, hl, hmap⟩
    have hns := not_space_of_map hmap siniestro_no_space
    have hwne : w ≠ [] := by
      rintro rfl
      cases hmap
    exact ⟨w, hasOcc_strip hwne hns line.data ⟨u, v, hl⟩, hmap⟩

/-- C7: a header is detected exactly when the token `SINIESTRO` occurs
case-insensitively in the file's first line, and the delimiter is inferred
from the fixed 2048-character prefix alone, defaulting to a comma when the
sniffer raises. -/
theorem header_and_delimiter_detection :
    (∀ line : String, hasHeader line = true ↔
      ∃ w u v, line.data = u ++ w ++ v ∧ w.map pyUpperChar = "SINIESTRO".data) ∧
    (∀ (sniff : String → Option Char) (c₁ c₂ : String), c₁.take 2048 = c₂.take 2048 →
      detectDelimiter sniff c₁ = detectDelimiter sniff c₂) ∧
    (∀ (sniff : String → Option Char) (content : String),
      sniff (content.take 2048) = none → detectDelimiter sniff content = ',') ∧
    (∀ (sniff : String → Option Char) (content : String) (d : Char),
      sniff (content.take 2048) = some d → detectDelimiter sniff content = d) := by
  refine ⟨hasHeader_iff, ?_, ?_, ?_⟩
  · intro sniff c₁ c₂ h
    unfold detectDelimiter
    rw [h]
  · intro sniff content h
    unfold detectDelimiter
    rw [h]
  · intro sniff content d h
    unfold detectDelimiter
    rw [h]

/-! ### C8: weather timestamp decomposition -/

theorem mapRowsOpt_mem (f : List Cell → Option (List Cell)) :
    ∀ (l l' : List (List Cell)), mapRowsOpt f l = some l' →
      ∀ b ∈ l', ∃ a ∈ l, f a = some b
  | [], l', h => by
    cases h
    intro b hb
    simp at hb
  | a :: l, l', h => by
    unfold mapRowsOpt at h
    cases hfa : f a with
    | none => rw [hfa] at h; cases h
    | some b0 =>
      rw [hfa] at h
      cases hml : mapRowsOpt f l with
      | none => rw [hml] at h; cases h
      | some bs =>
        rw [hml] at h
        cases h
        intro b hb
        rcases List.mem_cons.mp hb with rfl | hb
        · exact ⟨a, List.mem_cons_self _ _, hfa⟩
        · obtain ⟨a', ha', hfa'⟩ := mapRowsOpt_mem f l bs hml b hb
          exact ⟨a', List.mem_cons_of_mem _ ha', hfa'⟩

theorem mem_insertRowBy (le : List Cell → List Cell → Bool) (r x : List Cell) :
    ∀ (l : List (List Cell)), x ∈ insertRowBy le r l ↔ x = r ∨ x ∈ l
  | [] => by simp [insertRowBy]
  | s :: t => by
    unfold insertRowBy
    by_cases h : le r s = true
    · simp [h, List.mem_cons]
    · simp only [h, if_false, Bool.false_eq_true, List.mem_cons, mem_insertRowBy le r x t]
      tauto

theorem mem_sortRowsBy (le : List Cell → List Cell → Bool) (x : List Cell) :
    ∀ (rows : List (List Cell)), x ∈ sortRowsBy le rows ↔ x ∈ rows
  | [] => Iff.rfl
  | r :: rows => by
    show x ∈ insertRowBy le r (sortRowsBy le rows) ↔ _
    rw [mem_insertRowBy, mem_sortRowsBy le x rows, List.mem_cons]

theorem setCol_fresh (c : String) (f : List Cell → Cell) (t : Table)
    (h : ∀ x ∈ t.cols, (x == c) = false) :
    setCol c f t = { cols := t.cols ++ [c], rows := t.rows.map (fun r => r ++ [f r]) } := by
  unfold setCol
  rw [List.findIdx?_eq_none_iff.mpr h]

theorem fresh_step (c : String) (base extra : List String)
    (hbase : ∀ x ∈ base, (x == c) = false) (hextra : ∀ x ∈ extra, (x == c) = false) :
    ∀ x ∈ base ++ extra, (x == c) = false := by
  intro x hx
  rcases List.mem_append.mp hx with h | h
  · exact hbase x h
  · exact hextra x h

theorem parseTimeRow_spec (i : Nat) (r r' : List Cell) (h : parseTimeRow i r = some r') :
    ∃ s d, r.get? i = some (Cell.str s) ∧ toDatetime s = some d ∧
      r' = r.set i (Cell.dt d) ∧ i < r.length := by
  unfold parseTimeRow at h
  split at h
  · rename_i s hg
    cases hd : toDatetime s with
    | none => rw [hd] at h; cases h
    | some d =>
      rw [hd] at h
      cases h
      exact ⟨s, d, hg, hd, rfl, (List.get?_eq_some.mp hg).1⟩
  · cases h

theorem weather_general (t u : Table)
    (hfresh : ∀ n ∈ (["FECHA", "AÑO", "MES", "DIA", "HORA", "FECHA_HORA"] : List String),
      ¬ n ∈ t.cols)
    (ht : tidyWeather t = some u) :
    u.cols = t.cols.map renameCol ++ ["FECHA", "AÑO", "MES", "DIA", "HORA"] ∧
    ∃ i, t.cols.findIdx? (fun x => x == "time") = some i ∧
      ∀ r ∈ u.rows, ∃ d rest,
        r = rest ++ [cellDate (Cell.dt d), Cell.num (d.year : Rat), Cell.num (d.month : Rat),
          Cell.num (d.day : Rat), Cell.num (d.hour : Rat)] ∧
        colValAt i rest = Cell.dt d := by
  have mk0 : ∀ c ∈ (["FECHA", "AÑO", "MES", "DIA", "HORA", "FECHA_HORA"] : List String),
      ∀ x ∈ t.cols, (x == c) = false := by
    intro c hc x hx
    rw [beq_eq_false_iff_ne]
    intro hxc
    exact hfresh c hc (hxc ▸ hx)
  have fF : ∀ x ∈ t.cols, (x == "FECHA") = false := mk0 "FECHA" (by decide)
  have fA : ∀ x ∈ t.cols ++ ["FECHA"], (x == "AÑO") = false :=
    fresh_step _ _ _ (mk0 "AÑO" (by decide)) (by decide)
  have fM : ∀ x ∈ (t.cols ++ ["FECHA"]) ++ ["AÑO"], (x == "MES") = false :=
    fresh_step _ _ _ (fresh_step _ _ _ (mk0 "MES" (by decide)) (by decide)) (by decide)
  have fD : ∀ x ∈ ((t.cols ++ ["FECHA"]) ++ ["AÑO"]) ++ ["MES"], (x == "DIA") = false :=
    fresh_step _ _ _ (fresh_step _ _ _ (fresh_step _ _ _ (mk0 "DIA" (by decide)) (by decide))
      (by decide)) (by decide)
  have fH : ∀ x ∈ (((t.cols ++ ["FECHA"]) ++ ["AÑO"]) ++ ["MES"]) ++ ["DIA"],
      (x == "HORA") = false :=
    fresh_step _ _ _ (fresh_step _ _ _ (fresh_step _ _ _ (fresh_step _ _ _
      (mk0 "HORA" (by decide)) (by decide)) (by decide)) (by decide)) (by decide)
  unfold tidyWeather at ht
  rw [Option.bind_eq_some] at ht
  obtain ⟨i, hidx, ht⟩ := ht
  rw [Option.bind_eq_some] at ht
  obtain ⟨rows1, hmap, ht⟩ := ht
  have hder : weatherDerived i { cols := t.cols, rows := rows1 } =
      { cols := ((((t.cols ++ ["FECHA"]) ++ ["AÑO"]) ++ ["MES"]) ++ ["DIA"]) ++ ["HORA"],
        rows := ((((rows1.map (fun r => r ++ [cellDate (colValAt i r)])).map
          (fun r => r ++ [cellYear (colValAt i r)])).map
          (fun r => r ++ [cellMonth (colValAt i r)])).map
          (fun r => r ++ [cellDay (colValAt i r)])).map
          (fun r => r ++ [cellHour (colValAt i r)]) } := by
    unfold weatherDerived
    rw [setCol_fresh "FECHA" (fun r => cellDate (colValAt i r))
      { cols := t.cols, rows := rows1 } fF]
    rw [setCol_fresh "AÑO" (fun r => cellYear (colValAt i r))
      { cols := t.cols ++ ["FECHA"],
        rows := rows1.map (fun r => r ++ [cellDate (colValAt i r)]) } fA]
    rw [setCol_fresh "MES" (fun r => cellMonth (colValAt i r))
      { cols := (t.cols ++ ["FECHA"]) ++ ["AÑO"],
        rows := (rows1.map (fun r => r ++ [cellDate (colValAt i r)])).map
          (fun r => r ++ [cellYear (colValAt i r)]) } fM]
    rw [setCol_fresh "DIA" (fun r => cellDay (colValAt i r))
      { cols := ((t.cols ++ ["FECHA"]) ++ ["AÑO"]) ++ ["MES"],
        rows := ((rows1.map (fun r => r ++ [cellDate (colValAt i r)])).map
          (fun r => r ++ [cellYear (colValAt i r)])).map
          (fun r => r ++ [cellMonth (colValAt i r)]) } fD]
    rw [setCol_fresh "HORA" (fun r => cellHour (colValAt i r))
      { cols := (((t.cols ++ ["FECHA"]) ++ ["AÑO"]) ++ ["MES"]) ++ ["DIA"],
        rows := (((rows1.map (fun r => r ++ [cellDate (colValAt i r)])).map
          (fun r => r ++ [cellYear (colValAt i r)])).map
          (fun r => r ++ [cellMonth (colValAt i r)])).map
          (fun r => r ++ [cellDay (colValAt i r)]) } fH]
  rw [hder] at ht
  unfold weatherRenamed at ht
  rw [Option.bind_eq_some] at ht
  obtain ⟨j, hj, ht⟩ := ht
  cases ht
  have e1 : renameCol "FECHA" = "FECHA" := by decide
  have e2 : renameCol "AÑO" = "AÑO" := by decide
  have e3 : renameCol "MES" = "MES" := by decide
  have e4 : renameCol "DIA" = "DIA" := by decide
  have e5 : renameCol "HORA" = "HORA" := by decide
  constructor
  · simp [List.map_append, e1, e2, e3, e4, e5, List.append_assoc]
  · refine ⟨i, hidx, ?_⟩
    intro r hr
    simp only [weatherRenamed] at hr
    rw [mem_sortRowsBy] at hr
    have hr2 := dedupRows_subset _ _ hr
    simp only [List.map_map] at hr2
    obtain ⟨r1, hr1, rfl⟩ := List.mem_map.mp hr2
    obtain ⟨r0, hr0, hpt⟩ := mapRowsOpt_mem _ _ _ hmap r1 hr1
    obtain ⟨s, d, hget, hd, hr1eq, hlt⟩ := parseTimeRow_spec i r0 r1 hpt
    have hlt1 : i < r1.length := by rw [hr1eq, List.length_set]; exact hlt
    have hcv : colValAt i r1 = Cell.dt d := by
      rw [hr1eq]
      simp [colValAt, List.getD_eq_getElem?_getD, List.getElem?_set_self', hlt]
    have happ : ∀ (l2 : List Cell), colValAt i (r1 ++ l2) = colValAt i r1 := by
      intro l2
      simp [colValAt, List.getD_eq_getElem?_getD, List.getElem?_append, hlt1]
    refine ⟨d, r1, ?_, hcv⟩
    simp only [Function.comp, List.append_assoc, List.cons_append, List.nil_append,
      List.singleton_append, happ, hcv, cellYear, cellMonth, cellDay, cellHour]

/-- C8: the weather timestamp "2020-03-01T05:00" decomposes to AÑO=2020,
MES=3, DIA=1, HORA=5 (shown both on the parser and on the full pipeline at a
concrete frame), and in general every row of the tidied weather table
carries AÑO, MES, DIA and HORA cells equal to the year, month, day and hour
of that row's parsed timestamp. -/
theorem weather_timestamp_decomposition :
    toDatetime "2020-03-01T05:00" = some ⟨2020, 3, 1, 5, 0⟩ ∧
    tidyWeather demoWeather = some demoWeatherTidy ∧
    ∀ (t u : Table),
      (∀ n ∈ (["FECHA", "AÑO", "MES", "DIA", "HORA", "FECHA_HORA"] : List String),
        ¬ n ∈ t.cols) →
      tidyWeather t = some u →
      u.cols = t.cols.map renameCol ++ ["FECHA", "AÑO", "MES", "DIA", "HORA"] ∧
      ∃ i, t.cols.findIdx? (fun x => x == "time") = some i ∧
        ∀ r ∈ u.rows, ∃ d rest,
          r = rest ++ [cellDate (Cell.dt d), Cell.num (d.year : Rat), Cell.num (d.month : Rat),
            Cell.num (d.day : Rat), Cell.num (d.hour : Rat)] ∧
          colValAt i rest = Cell.dt d :=
  ⟨by decide, by decide, weather_general⟩

end ProyIngDatos
